import Mathlib

/-!
Verification of the path-addressed structured-document patcher of
`charmed_analytics_ci` (files `rock_integrator.py`, `rock_metadata_handler.py`,
`rock_ci_metadata_schema.py`).

The Python functions are shallowly embedded: loaded YAML/JSON documents become
the inductive `Value` tree, Python exceptions become the `PyErr` error type and
fallible code returns `Except PyErr _`.  The in-place mutation performed by
`_set_in_path` is modelled by returning the rebuilt tree; its sole assignment
happens at the terminal path segment after every check has passed, so an
exception always leaves the caller's tree unchanged, which the top-level
wrapper `_set_in_path` reflects by pairing the (possibly updated) tree with an
optional error.
-/

namespace ChaCI

/-- Document trees produced by loading YAML/JSON: nested mappings
(insertion-ordered key/value lists), sequences, and scalars. -/
inductive Value : Type where
  | vstr (s : String)
  | vint (n : Int)
  | vbool (b : Bool)
  | vnull
  | vlist (xs : List Value)
  | vdict (kvs : List (String × Value))

/-- Python exceptions raised by the path resolver. -/
inductive PyErr : Type where
  | keyError (msg : String)
  | indexError (msg : String)
  | typeError (msg : String)
  | valueError (msg : String)
deriving DecidableEq

/-- Python `repr` of a string, restricted to quote selection and the escaping
of backslashes and quotes (control-character escapes are not reproduced; the
resolver's messages never contain control characters). CPython prefers single
quotes and switches to double quotes when the string contains a single quote
but no double quote. -/
def pyReprStr (s : String) : String :=
  let hasSingle := s.data.contains '\''
  let hasDouble := s.data.contains '"'
  let q : Char := if hasSingle && !hasDouble then '"' else '\''
  let esc := s.data.foldl (fun acc c =>
    if c = '\\' then acc ++ "\\\\"
    else if c = q then acc ++ "\\" ++ q.toString
    else acc ++ c.toString) ""
  q.toString ++ esc ++ q.toString

/-- Python `str(e)` for the embedded exceptions.  `str` of a `KeyError` is the
`repr` of its argument; the other exception classes render their message
verbatim. -/
def renderPyErr : PyErr → String
  | .keyError m => pyReprStr m
  | .indexError m => m
  | .typeError m => m
  | .valueError m => m

/-- First-occurrence lookup in an insertion-ordered mapping
(Python `data[key]` read on a `dict`). -/
def dlookup : List (String × Value) → String → Option Value
  | [], _ => none
  | (k, w) :: kvs, key => if k = key then some w else dlookup kvs key

/-- Python `data[key] = v` on a `dict`: overwrite the existing entry in place,
or append a fresh entry at the end. -/
def dassign : List (String × Value) → String → Value → List (String × Value)
  | [], key, v => [(key, v)]
  | (k, w) :: kvs, key, v =>
    if k = key then (k, v) :: kvs else (k, w) :: dassign kvs key v

/-- The regex lookahead `[^\[]*\]` from `re.split(r"\.(?![^\[]*\])", path)`:
succeeds exactly when a `]` occurs before any `[` in the remainder. -/
def lookaheadBracket : List Char → Bool
  | [] => false
  | c :: cs => if c = ']' then true else if c = '[' then false else lookaheadBracket cs

/-- `re.split(r"\.(?![^\[]*\])", path)`: split at every dot whose negative
lookahead fails, keeping empty pieces, as Python's `re.split` does. -/
def splitDots : List Char → List (List Char)
  | [] => [[]]
  | c :: cs =>
    if c = '.' && !lookaheadBracket cs then
      [] :: splitDots cs
    else
      match splitDots cs with
      | [] => [[c]]
      | s :: ss => (c :: s) :: ss

/-- The code splits the path at position `p` iff `p` holds a dot whose
lookahead fails; this is the branch condition of `splitDots` read at an
arbitrary position. -/
def sepAt (s : List Char) (p : Nat) : Bool :=
  match s.drop p with
  | '.' :: rest => !lookaheadBracket rest
  | _ => false

/-- Accumulator pass of Python `int()` over decimal digits. -/
def parseDigitsGo : List Char → Nat → Option Nat
  | [], acc => some acc
  | c :: cs, acc =>
    if c.isDigit then parseDigitsGo cs (acc * 10 + (c.toNat - '0'.toNat)) else none

/-- Python `int(s)` on the stripped index text: optional sign followed by one
or more decimal digits (the whitespace and underscore tolerance of CPython's
`int` is not reproduced; it only affects which malformed strings raise). -/
def parsePyInt (cs : List Char) : Option Int :=
  match cs with
  | '-' :: ds => if ds = [] then none else (parseDigitsGo ds 0).map (fun n => -(n : Int))
  | '+' :: ds => if ds = [] then none else (parseDigitsGo ds 0).map (fun n => (n : Int))
  | ds => if ds = [] then none else (parseDigitsGo ds 0).map (fun n => (n : Int))

/-- Python `s.rstrip("]")`: drop every trailing `]`. -/
def rstripRBracket (cs : List Char) : List Char :=
  (cs.reverse.dropWhile (fun c => c = ']')).reverse

/-- Is `needle` a leading piece of `hay`? (component of Python's `in` on
strings). -/
def isPre : List Char → List Char → Bool
  | [], _ => true
  | _ :: _, [] => false
  | a :: as, b :: bs => a = b && isPre as bs

/-- Python substring test `needle in hay` for strings. -/
def isSub (needle : List Char) : List Char → Bool
  | [] => needle.isEmpty
  | c :: rest => isPre needle (c :: rest) || isSub needle rest

/-- Python membership `key in data` for a string key: key lookup on dicts,
element equality on lists (a string never equals a non-string value),
substring test on strings, `TypeError` on non-container scalars. -/
def pyContains (data : Value) (key : String) : Except PyErr Bool :=
  match data with
  | .vdict kvs => .ok (dlookup kvs key).isSome
  | .vlist xs => .ok (xs.any (fun x => match x with | .vstr s => s = key | _ => false))
  | .vstr s => .ok (isSub key.data s.data)
  | _ => .error (.typeError "argument is not iterable")

/-- Python `data[key]` read with a string subscript. -/
def pySubscriptStr (data : Value) (key : String) : Except PyErr Value :=
  match data with
  | .vdict kvs =>
    match dlookup kvs key with
    | some v => .ok v
    | none => .error (.keyError key)
  | .vlist _ => .error (.typeError "list indices must be integers or slices, not str")
  | .vstr _ => .error (.typeError "string indices must be integers")
  | _ => .error (.typeError "object is not subscriptable")

/-- Python `data[el] = v` with a string subscript. -/
def pyAssignStr (data : Value) (key : String) (v : Value) : Except PyErr Value :=
  match data with
  | .vdict kvs => .ok (.vdict (dassign kvs key v))
  | .vlist _ => .error (.typeError "list indices must be integers or slices, not str")
  | .vstr _ => .error (.typeError "str object does not support item assignment")
  | _ => .error (.typeError "object does not support item assignment")

/-- Python list indexing: a non-negative index addresses position `idx` when
`idx < len`; a negative index addresses `len + idx` when `-len ≤ idx`. -/
def pyNormIdx (len : Nat) (idx : Int) : Option Nat :=
  if 0 ≤ idx then (if idx < (len : Int) then some idx.toNat else none)
  else (if -(len : Int) ≤ idx then some ((len : Int) + idx).toNat else none)

/-- Per-segment parse shared by `_get_from_path` and `_set_in_path`
(lines 68-70 and 101-103): on `"[" in el`, `el.split("[")` must yield exactly
two pieces (otherwise the 2-tuple unpack raises `ValueError`), and the text
between the brackets goes through `int(  idx.rstrip("]"))`.  Returns `none`
for a plain-key segment. -/
def parseSeg (el : String) : Except PyErr (Option (String × Int)) :=
  if el.data.contains '[' then
    if el.data.count '[' ≠ 1 then
      .error (.valueError "too many values to unpack (expected 2)")
    else
      let key : String := ⟨el.data.takeWhile (fun c => c ≠ '[')⟩
      let rest := (el.data.dropWhile (fun c => c ≠ '[')).drop 1
      match parsePyInt (rstripRBracket rest) with
      | some i => .ok (some (key, i))
      | none => .error (.valueError "invalid literal for int() with base 10")
  else .ok none

/-- One iteration of the traversal loop shared by `_get_from_path` and
`_set_in_path` (reading flavour, with `_get_from_path`'s error messages):
resolve one segment against the current value. -/
def getStepVal (path : String) (d : Value) (el : String) : Except PyErr Value :=
  match parseSeg el with
  | .error e => .error e
  | .ok (some (key, idx)) =>
    match pyContains d key with
    | .error e => .error e
    | .ok b =>
      if !b then
        .error (.keyError ("Expected a list at key '" ++ key ++ "' in path '" ++ path ++ "'"))
      else
        match pySubscriptStr d key with
        | .error e => .error e
        | .ok (.vlist xs) =>
          if (xs.length : Int) ≤ idx then
            .error (.indexError ("Index [" ++ toString idx ++ "] out of bounds for '" ++
              key ++ "' in path '" ++ path ++ "'"))
          else
            match pyNormIdx xs.length idx with
            | none => .error (.indexError "list index out of range")
            | some n => .ok (xs.getD n .vnull)
        | .ok _ =>
          .error (.keyError ("Expected a list at key '" ++ key ++ "' in path '" ++ path ++ "'"))
  | .ok none =>
    match pyContains d el with
    | .error e => .error e
    | .ok b =>
      if !b then
        .error (.keyError ("Missing key '" ++ el ++ "' in path '" ++ path ++ "'"))
      else pySubscriptStr d el

/-- The traversal loop of `_get_from_path` over the already-split segments
(the final segment is distinguished only to keep recursion structural). -/
def getSegs (path : String) : Value → List String → Except PyErr Value
  | d, [] => .ok d
  | d, [el] => getStepVal path d el
  | d, el :: el2 :: rest =>
    match getStepVal path d el with
    | .error e => .error e
    | .ok sub => getSegs path sub (el2 :: rest)

/-- `_get_from_path(data, path)` from `rock_integrator.py` lines 50-82. -/
def _get_from_path (data : Value) (path : String) : Except PyErr Value :=
  getSegs path data ((splitDots path.data).map (fun l => ⟨l⟩))

/-- One non-terminal iteration of the `_set_in_path` loop (`is_last` false):
identical checks with `_set_in_path`'s error messages; descending by reference
in Python means a later write into the sub-value is a write into the enclosing
tree, which is modelled by also returning the rebuilding context. -/
def setDescend (path : String) (d : Value) (el : String) :
    Except PyErr (Value × (Value → Value)) :=
  match parseSeg el with
  | .error e => .error e
  | .ok (some (key, idx)) =>
    match pyContains d key with
    | .error e => .error e
    | .ok b =>
      if !b then
        .error (.keyError ("Key '" ++ key ++ "' not found or not a list in path '" ++
          path ++ "'"))
      else
        match pySubscriptStr d key with
        | .error e => .error e
        | .ok (.vlist xs) =>
          if (xs.length : Int) ≤ idx then
            .error (.indexError ("Index [" ++ toString idx ++ "] out of range for '" ++
              key ++ "' in path '" ++ path ++ "'"))
          else
            match pyNormIdx xs.length idx with
            | none => .error (.indexError "list index out of range")
            | some n =>
              match d with
              | .vdict kvs =>
                .ok (xs.getD n .vnull,
                     fun sub2 => .vdict (dassign kvs key (.vlist (xs.set n sub2))))
              | _ => .error (.typeError "unreachable: subscript succeeded on a non-dict")
        | .ok _ =>
          .error (.keyError ("Key '" ++ key ++ "' not found or not a list in path '" ++
            path ++ "'"))
  | .ok none =>
    match pyContains d el with
    | .error e => .error e
    | .ok b =>
      if !b then
        .error (.keyError ("Key '" ++ el ++ "' not found in path '" ++ path ++ "'"))
      else
        match pySubscriptStr d el with
        | .error e => .error e
        | .ok sub =>
          match d with
          | .vdict kvs => .ok (sub, fun sub2 => .vdict (dassign kvs el sub2))
          | _ => .error (.typeError "unreachable: subscript succeeded on a non-dict")

/-- The terminal iteration of the `_set_in_path` loop (`is_last` true): same
checks, then the existing slot is overwritten (`data[key][idx] = value` or
`data[el] = value`). -/
def setTerminal (path : String) (value : Value) (d : Value) (el : String) :
    Except PyErr Value :=
  match parseSeg el with
  | .error e => .error e
  | .ok (some (key, idx)) =>
    match pyContains d key with
    | .error e => .error e
    | .ok b =>
      if !b then
        .error (.keyError ("Key '" ++ key ++ "' not found or not a list in path '" ++
          path ++ "'"))
      else
        match pySubscriptStr d key with
        | .error e => .error e
        | .ok (.vlist xs) =>
          if (xs.length : Int) ≤ idx then
            .error (.indexError ("Index [" ++ toString idx ++ "] out of range for '" ++
              key ++ "' in path '" ++ path ++ "'"))
          else
            match pyNormIdx xs.length idx with
            | none => .error (.indexError "list assignment index out of range")
            | some n =>
              match d with
              | .vdict kvs => .ok (.vdict (dassign kvs key (.vlist (xs.set n value))))
              | _ => .error (.typeError "unreachable: subscript succeeded on a non-dict")
        | .ok _ =>
          .error (.keyError ("Key '" ++ key ++ "' not found or not a list in path '" ++
            path ++ "'"))
  | .ok none =>
    match pyContains d el with
    | .error e => .error e
    | .ok b =>
      if !b then
        .error (.keyError ("Key '" ++ el ++ "' not found in path '" ++ path ++ "'"))
      else pyAssignStr d el value

/-- The traversal loop of `_set_in_path` over the already-split segments. -/
def setSegs (path : String) (value : Value) : Value → List String → Except PyErr Value
  | d, [] => .ok d
  | d, [el] => setTerminal path value d el
  | d, el :: el2 :: rest =>
    match setDescend path d el with
    | .error e => .error e
    | .ok (sub, rebuild) =>
      match setSegs path value sub (el2 :: rest) with
      | .error e => .error e
      | .ok sub2 => .ok (rebuild sub2)

/-- `_set_in_path` as seen by a caller holding the document: the mutated tree
and no error, or — since the loop's only assignment is at the final segment
and every raise happens before it — the untouched tree and the raised
exception. -/
def setExc (data : Value) (path : String) (value : Value) : Except PyErr Value :=
  setSegs path value data ((splitDots path.data).map (fun l => ⟨l⟩))

/-- `_set_in_path(data, path, value)` from `rock_integrator.py` lines 85-118,
returning the caller-visible tree together with the raised exception, if
any. -/
def _set_in_path (data : Value) (path : String) (value : Value) : Value × Option PyErr :=
  match setExc data path value with
  | .ok d => (d, none)
  | .error e => (data, some e)

theorem dlookup_dassign_self (kvs : List (String × Value)) (k : String) (v : Value) :
    dlookup (dassign kvs k v) k = some v := by
  induction kvs with
  | nil => simp [dassign, dlookup]
  | cons kv kvs ih =>
    obtain ⟨k1, w1⟩ := kv
    by_cases h : k1 = k <;> simp [dassign, dlookup, h, ih]

theorem getD_set_self (xs : List Value) (n : Nat) (v d : Value) (h : n < xs.length) :
    (xs.set n v).getD n d = v := by
  induction xs generalizing n with
  | nil => simp at h
  | cons x xs ih =>
    cases n with
    | zero => simp [List.set, List.getD]
    | succ m =>
      simp only [List.set, List.getD, List.getElem?_cons_succ]
      have hm : m < xs.length := by simpa using h
      simpa [List.getD] using ih m hm

theorem pyNormIdx_lt {len : Nat} {idx : Int} {n : Nat} (h : pyNormIdx len idx = some n) :
    n < len := by
  unfold pyNormIdx at h
  split at h
  · split at h
    · cases h; omega
    · cases h
  · split at h
    · cases h; omega
    · cases h

/-- A segment that reads successfully is descended identically by the write
traversal, and re-reading the segment after the rebuilding context has been
filled with any value returns exactly that value. -/
theorem getStepVal_ok_descend (p : String) (d : Value) (el : String) (sub : Value)
    (h : getStepVal p d el = .ok sub) :
    ∃ rb : Value → Value, setDescend p d el = .ok (sub, rb) ∧
      ∀ v2, getStepVal p (rb v2) el = .ok v2 := by
  cases hps : parseSeg el with
  | error e => simp only [getStepVal, hps] at h; exact Except.noConfusion h
  | ok o =>
    simp only [getStepVal, hps] at h
    cases o with
    | some ki =>
      obtain ⟨key, idx⟩ := ki
      cases hcon : pyContains d key with
      | error e => simp only [hcon] at h; exact Except.noConfusion h
      | ok b =>
        simp only [hcon] at h
        cases b with
        | false => simp at h
        | true =>
          simp only [Bool.not_true, Bool.false_eq_true, if_false] at h
          cases hsub : pySubscriptStr d key with
          | error e => simp only [hsub] at h; exact Except.noConfusion h
          | ok sv =>
            simp only [hsub] at h
            cases sv with
            | vlist xs =>
              simp only [] at h
              by_cases hbound : (xs.length : Int) ≤ idx
              · rw [if_pos hbound] at h; exact Except.noConfusion h
              · rw [if_neg hbound] at h
                cases hnorm : pyNormIdx xs.length idx with
                | none => simp only [hnorm] at h; exact Except.noConfusion h
                | some n =>
                  simp only [hnorm, Except.ok.injEq] at h
                  cases d with
                  | vdict kvs =>
                    have hlk : dlookup kvs key = some (.vlist xs) := by
                      simp only [pySubscriptStr] at hsub
                      cases h2 : dlookup kvs key with
                      | none => simp only [h2] at hsub; exact Except.noConfusion hsub
                      | some u => simp only [h2, Except.ok.injEq] at hsub; rw [hsub]
                    have hn : n < xs.length := pyNormIdx_lt hnorm
                    refine ⟨fun v2 => .vdict (dassign kvs key (.vlist (xs.set n v2))),
                      ?_, ?_⟩
                    · simp only [setDescend, hps, hcon, Bool.not_true,
                        Bool.false_eq_true, if_false, hsub, if_neg hbound, hnorm, h]
                    · intro v2
                      have hb2 : ¬ ((xs.set n v2).length : Int) ≤ idx := by
                        rw [List.length_set]; exact hbound
                      simp only [getStepVal, hps, pyContains, dlookup_dassign_self,
                        Option.isSome_some, Bool.not_true, Bool.false_eq_true, if_false,
                        pySubscriptStr, if_neg hb2, List.length_set, if_neg hbound,
                        hnorm, getD_set_self xs n v2 Value.vnull hn]
                  | vstr s => simp [pySubscriptStr] at hsub
                  | vint n2 => simp [pySubscriptStr] at hsub
                  | vbool b2 => simp [pySubscriptStr] at hsub
                  | vnull => simp [pySubscriptStr] at hsub
                  | vlist ys => simp [pySubscriptStr] at hsub
            | vstr s => simp at h
            | vint n2 => simp at h
            | vbool b2 => simp at h
            | vnull => simp at h
            | vdict kvs2 => simp at h
    | none =>
      cases hcon : pyContains d el with
      | error e => simp only [hcon] at h; exact Except.noConfusion h
      | ok b =>
        simp only [hcon] at h
        cases b with
        | false => simp at h
        | true =>
          simp only [Bool.not_true, Bool.false_eq_true, if_false] at h
          cases d with
          | vdict kvs =>
            have hlk : dlookup kvs el = some sub := by
              simp only [pySubscriptStr] at h
              cases h2 : dlookup kvs el with
              | none => simp only [h2] at h; exact Except.noConfusion h
              | some u => simp only [h2, Except.ok.injEq] at h; rw [h]
            refine ⟨fun v2 => .vdict (dassign kvs el v2), ?_, ?_⟩
            · simp only [setDescend, hps, pyContains, hlk, Option.isSome_some,
                Bool.not_true, Bool.false_eq_true, if_false, pySubscriptStr]
            · intro v2
              simp only [getStepVal, hps, pyContains, dlookup_dassign_self,
                Option.isSome_some, Bool.not_true, Bool.false_eq_true, if_false,
                pySubscriptStr]
          | vstr s => simp [pySubscriptStr] at h
          | vint n2 => simp [pySubscriptStr] at h
          | vbool b2 => simp [pySubscriptStr] at h
          | vnull => simp [pySubscriptStr] at h
          | vlist ys => simp [pySubscriptStr] at h

/-- A segment that reads successfully can be overwritten by the terminal
write iteration, and afterwards reads back the written value. -/
theorem getStepVal_ok_terminal (p : String) (v : Value) (d : Value) (el : String)
    (sub : Value) (h : getStepVal p d el = .ok sub) :
    ∃ d2, setTerminal p v d el = .ok d2 ∧ getStepVal p d2 el = .ok v := by
  obtain ⟨rb, hdesc, hrb⟩ := getStepVal_ok_descend p d el sub h
  refine ⟨rb v, ?_, hrb v⟩
  cases hps : parseSeg el with
  | error e => simp only [setDescend, hps] at hdesc; exact Except.noConfusion hdesc
  | ok o =>
    simp only [setDescend, hps] at hdesc
    cases o with
    | some ki =>
      obtain ⟨key, idx⟩ := ki
      cases hcon : pyContains d key with
      | error e => simp only [hcon] at hdesc; exact Except.noConfusion hdesc
      | ok b =>
        simp only [hcon] at hdesc
        cases b with
        | false => simp at hdesc
        | true =>
          simp only [Bool.not_true, Bool.false_eq_true, if_false] at hdesc
          cases hsub : pySubscriptStr d key with
          | error e => simp only [hsub] at hdesc; exact Except.noConfusion hdesc
          | ok sv =>
            simp only [hsub] at hdesc
            cases sv with
            | vlist xs =>
              simp only [] at hdesc
              by_cases hbound : (xs.length : Int) ≤ idx
              · rw [if_pos hbound] at hdesc; exact Except.noConfusion hdesc
              · rw [if_neg hbound] at hdesc
                cases hnorm : pyNormIdx xs.length idx with
                | none => simp only [hnorm] at hdesc; exact Except.noConfusion hdesc
                | some n =>
                  simp only [hnorm] at hdesc
                  cases d with
                  | vdict kvs =>
                    simp only [Except.ok.injEq, Prod.mk.injEq] at hdesc
                    obtain ⟨hsub2, hrbeq⟩ := hdesc
                    simp only [setTerminal, hps, hcon, Bool.not_true, Bool.false_eq_true,
                      if_false, hsub, if_neg hbound, hnorm, ← hrbeq]
                  | vstr s => simp [pySubscriptStr] at hsub
                  | vint n2 => simp [pySubscriptStr] at hsub
                  | vbool b2 => simp [pySubscriptStr] at hsub
                  | vnull => simp [pySubscriptStr] at hsub
                  | vlist ys => simp [pySubscriptStr] at hsub
            | vstr s => simp at hdesc
            | vint n2 => simp at hdesc
            | vbool b2 => simp at hdesc
            | vnull => simp at hdesc
            | vdict kvs2 => simp at hdesc
    | none =>
      cases hcon : pyContains d el with
      | error e => simp only [hcon] at hdesc; exact Except.noConfusion hdesc
      | ok b =>
        simp only [hcon] at hdesc
        cases b with
        | false => simp at hdesc
        | true =>
          simp only [Bool.not_true, Bool.false_eq_true, if_false] at hdesc
          cases hsub : pySubscriptStr d el with
          | error e => simp only [hsub] at hdesc; exact Except.noConfusion hdesc
          | ok sv =>
            simp only [hsub] at hdesc
            cases d with
            | vdict kvs =>
              simp only [Except.ok.injEq, Prod.mk.injEq] at hdesc
              obtain ⟨hsub2, hrbeq⟩ := hdesc
              simp only [setTerminal, hps, hcon, Bool.not_true, Bool.false_eq_true,
                if_false, pyAssignStr, ← hrbeq]
            | vstr s => simp [pySubscriptStr] at hsub
            | vint n2 => simp [pySubscriptStr] at hsub
            | vbool b2 => simp [pySubscriptStr] at hsub
            | vnull => simp [pySubscriptStr] at hsub
            | vlist ys => simp [pySubscriptStr] at hsub

/-- Core of the write-then-read round trip over the split segments. -/
theorem getSegs_set_ok (p : String) (v : Value) :
    ∀ (segs : List String) (d w : Value), segs ≠ [] → getSegs p d segs = .ok w →
      ∃ d2, setSegs p v d segs = .ok d2 ∧ getSegs p d2 segs = .ok v := by
  intro segs
  induction segs with
  | nil => intro d w h; exact absurd rfl h
  | cons el rest ih =>
    intro d w _ hget
    cases rest with
    | nil =>
      simp only [getSegs] at hget
      obtain ⟨d2, hterm, hback⟩ := getStepVal_ok_terminal p v d el w hget
      exact ⟨d2, by simp only [setSegs, hterm], by simp only [getSegs, hback]⟩
    | cons el2 rest2 =>
      simp only [getSegs] at hget
      cases hst : getStepVal p d el with
      | error e => simp only [hst] at hget; exact Except.noConfusion hget
      | ok sub =>
        simp only [hst] at hget
        obtain ⟨rb, hdesc, hrb⟩ := getStepVal_ok_descend p d el sub hst
        obtain ⟨d2, hset2, hget2⟩ := ih sub w (by simp) hget
        refine ⟨rb d2, ?_, ?_⟩
        · simp only [setSegs, hdesc, hset2]
        · simp only [getSegs, hrb d2, hget2]

theorem splitDots_ne_nil (cs : List Char) : splitDots cs ≠ [] := by
  induction cs with
  | nil => simp [splitDots]
  | cons c cs ih =>
    simp only [splitDots]
    split
    · simp
    · cases h : splitDots cs with
      | nil => simp
      | cons s ss => simp

/-- A segment on which the read iteration raises makes both the descending
and the terminal write iteration raise as well (the messages may differ). -/
theorem getStepVal_err_set (p : String) (v : Value) (d : Value) (el : String) (e : PyErr)
    (h : getStepVal p d el = .error e) :
    (∃ e2, setDescend p d el = .error e2) ∧ (∃ e2, setTerminal p v d el = .error e2) := by
  cases hps : parseSeg el with
  | error e0 =>
    refine ⟨?_, ?_⟩
    · cases hd : setDescend p d el with
      | error e2 => exact ⟨e2, rfl⟩
      | ok pr => simp [setDescend, hps] at hd
    · cases hd : setTerminal p v d el with
      | error e2 => exact ⟨e2, rfl⟩
      | ok pr => simp [setTerminal, hps] at hd
  | ok o =>
    simp only [getStepVal, hps] at h
    cases o with
    | some ki =>
      obtain ⟨key, idx⟩ := ki
      cases hcon : pyContains d key with
      | error e0 =>
        refine ⟨?_, ?_⟩
        · cases hd : setDescend p d el with
          | error e2 => exact ⟨e2, rfl⟩
          | ok pr => simp [setDescend, hps, hcon] at hd
        · cases hd : setTerminal p v d el with
          | error e2 => exact ⟨e2, rfl⟩
          | ok pr => simp [setTerminal, hps, hcon] at hd
      | ok b =>
        simp only [hcon] at h
        cases b with
        | false =>
          refine ⟨?_, ?_⟩
          · cases hd : setDescend p d el with
            | error e2 => exact ⟨e2, rfl⟩
            | ok pr => simp [setDescend, hps, hcon] at hd
          · cases hd : setTerminal p v d el with
            | error e2 => exact ⟨e2, rfl⟩
            | ok pr => simp [setTerminal, hps, hcon] at hd
        | true =>
          simp only [Bool.not_true, Bool.false_eq_true, if_false] at h
          cases hsub : pySubscriptStr d key with
          | error e0 =>
            refine ⟨?_, ?_⟩
            · cases hd : setDescend p d el with
              | error e2 => exact ⟨e2, rfl⟩
              | ok pr => simp [setDescend, hps, hcon, hsub] at hd
            · cases hd : setTerminal p v d el with
              | error e2 => exact ⟨e2, rfl⟩
              | ok pr => simp [setTerminal, hps, hcon, hsub] at hd
          | ok sv =>
            simp only [hsub] at h
            cases sv with
            | vlist xs =>
              simp only [] at h
              by_cases hbound : (xs.length : Int) ≤ idx
              ·
                refine ⟨?_, ?_⟩
                · cases hd : setDescend p d el with
                  | error e2 => exact ⟨e2, rfl⟩
                  | ok pr => simp [setDescend, hps, hcon, hsub, hbound] at hd
                · cases hd : setTerminal p v d el with
                  | error e2 => exact ⟨e2, rfl⟩
                  | ok pr => simp [setTerminal, hps, hcon, hsub, hbound] at hd
              · rw [if_neg hbound] at h
                cases hnorm : pyNormIdx xs.length idx with
                | none =>
                  refine ⟨?_, ?_⟩
                  · cases hd : setDescend p d el with
                    | error e2 => exact ⟨e2, rfl⟩
                    | ok pr => simp [setDescend, hps, hcon, hsub, hbound, hnorm] at hd
                  · cases hd : setTerminal p v d el with
                    | error e2 => exact ⟨e2, rfl⟩
                    | ok pr => simp [setTerminal, hps, hcon, hsub, hbound, hnorm] at hd
                | some n => simp only [hnorm] at h; exact Except.noConfusion h
            | vstr s =>
              refine ⟨?_, ?_⟩
              · cases hd : setDescend p d el with
                | error e2 => exact ⟨e2, rfl⟩
                | ok pr => simp [setDescend, hps, hcon, hsub] at hd
              · cases hd : setTerminal p v d el with
                | error e2 => exact ⟨e2, rfl⟩
                | ok pr => simp [setTerminal, hps, hcon, hsub] at hd
            | vint n2 =>
              refine ⟨?_, ?_⟩
              · cases hd : setDescend p d el with
                | error e2 => exact ⟨e2, rfl⟩
                | ok pr => simp [setDescend, hps, hcon, hsub] at hd
              · cases hd : setTerminal p v d el with
                | error e2 => exact ⟨e2, rfl⟩
                | ok pr => simp [setTerminal, hps, hcon, hsub] at hd
            | vbool b2 =>
              refine ⟨?_, ?_⟩
              · cases hd : setDescend p d el with
                | error e2 => exact ⟨e2, rfl⟩
                | ok pr => simp [setDescend, hps, hcon, hsub] at hd
              · cases hd : setTerminal p v d el with
                | error e2 => exact ⟨e2, rfl⟩
                | ok pr => simp [setTerminal, hps, hcon, hsub] at hd
            | vnull =>
              refine ⟨?_, ?_⟩
              · cases hd : setDescend p d el with
                | error e2 => exact ⟨e2, rfl⟩
                | ok pr => simp [setDescend, hps, hcon, hsub] at hd
              · cases hd : setTerminal p v d el with
                | error e2 => exact ⟨e2, rfl⟩
                | ok pr => simp [setTerminal, hps, hcon, hsub] at hd
            | vdict kvs2 =>
              refine ⟨?_, ?_⟩
              · cases hd : setDescend p d el with
                | error e2 => exact ⟨e2, rfl⟩
                | ok pr => simp [setDescend, hps, hcon, hsub] at hd
              · cases hd : setTerminal p v d el with
                | error e2 => exact ⟨e2, rfl⟩
                | ok pr => simp [setTerminal, hps, hcon, hsub] at hd
    | none =>
      cases hcon : pyContains d el with
      | error e0 =>
        refine ⟨?_, ?_⟩
        · cases hd : setDescend p d el with
          | error e2 => exact ⟨e2, rfl⟩
          | ok pr => simp [setDescend, hps, hcon] at hd
        · cases hd : setTerminal p v d el with
          | error e2 => exact ⟨e2, rfl⟩
          | ok pr => simp [setTerminal, hps, hcon] at hd
      | ok b =>
        simp only [hcon] at h
        cases b with
        | false =>
          refine ⟨?_, ?_⟩
          · cases hd : setDescend p d el with
            | error e2 => exact ⟨e2, rfl⟩
            | ok pr => simp [setDescend, hps, hcon] at hd
          · cases hd : setTerminal p v d el with
            | error e2 => exact ⟨e2, rfl⟩
            | ok pr => simp [setTerminal, hps, hcon] at hd
        | true =>
          simp only [Bool.not_true, Bool.false_eq_true, if_false] at h
          cases d with
          | vdict kvs =>
            simp only [pySubscriptStr] at h
            cases h2 : dlookup kvs el with
            | none => simp [pyContains, h2] at hcon
            | some u => simp only [h2] at h; exact Except.noConfusion h
          | vstr s =>
            refine ⟨?_, ?_⟩
            · cases hd : setDescend p (.vstr s) el with
              | error e2 => exact ⟨e2, rfl⟩
              | ok pr => simp [setDescend, hps, hcon, h] at hd
            · cases hd : setTerminal p v (.vstr s) el with
              | error e2 => exact ⟨e2, rfl⟩
              | ok pr => simp [setTerminal, hps, hcon, pyAssignStr] at hd
          | vint n2 => simp only [pyContains] at hcon; exact Except.noConfusion hcon
          | vbool b2 => simp only [pyContains] at hcon; exact Except.noConfusion hcon
          | vnull => simp only [pyContains] at hcon; exact Except.noConfusion hcon
          | vlist ys =>
            refine ⟨?_, ?_⟩
            · cases hd : setDescend p (.vlist ys) el with
              | error e2 => exact ⟨e2, rfl⟩
              | ok pr => simp [setDescend, hps, hcon, h] at hd
            · cases hd : setTerminal p v (.vlist ys) el with
              | error e2 => exact ⟨e2, rfl⟩
              | ok pr => simp [setTerminal, hps, hcon, pyAssignStr] at hd

/-- Core of the failure mirroring: a traversal on which the read raises makes
the write traversal raise too. -/
theorem getSegs_err_set (p : String) (v : Value) :
    ∀ (segs : List String) (d : Value) (e : PyErr), getSegs p d segs = .error e →
      ∃ e2, setSegs p v d segs = .error e2 := by
  intro segs
  induction segs with
  | nil => intro d e h; simp only [getSegs] at h; exact Except.noConfusion h
  | cons el rest ih =>
    intro d e hget
    cases rest with
    | nil =>
      simp only [getSegs] at hget
      obtain ⟨_, ⟨e2, hterm⟩⟩ := getStepVal_err_set p v d el e hget
      exact ⟨e2, by simp only [setSegs, hterm]⟩
    | cons el2 rest2 =>
      simp only [getSegs] at hget
      cases hst : getStepVal p d el with
      | error e0 =>
        obtain ⟨⟨e2, hdesc⟩, _⟩ := getStepVal_err_set p v d el e0 hst
        exact ⟨e2, by simp only [setSegs, hdesc]⟩
      | ok sub =>
        simp only [hst] at hget
        obtain ⟨rb, hdesc, _⟩ := getStepVal_ok_descend p d el sub hst
        obtain ⟨e2, hset2⟩ := ih sub e hget
        exact ⟨e2, by simp only [setSegs, hdesc, hset2]⟩

/-- C1: write-then-read round trip.  For every document tree and every path
expression that resolves on that tree via `_get_from_path`, performing
`_set_in_path(tree, path, v)` and then `_get_from_path(tree, path)` returns
`v`, for every value `v`. -/
theorem c1_write_then_read_roundtrip (t : Value) (p : String) (v w : Value)
    (h : _get_from_path t p = .ok w) :
    _get_from_path ((_set_in_path t p v).1) p = .ok v := by
  have hne : (splitDots p.data).map (fun l => (⟨l⟩ : String)) ≠ [] := by
    simp [splitDots_ne_nil]
  obtain ⟨d2, hset, hget2⟩ :=
    getSegs_set_ok p v ((splitDots p.data).map (fun l => ⟨l⟩)) t w hne h
  unfold _set_in_path setExc
  rw [hset]
  exact hget2

theorem c1_write_then_read_roundtrip_witness :
    _get_from_path
      (.vdict [("containers", .vlist [.vdict [("image", .vstr "old")]])])
      "containers[0].image" = .ok (.vstr "old")
    ∧ _get_from_path
        ((_set_in_path (.vdict [("containers", .vlist [.vdict [("image", .vstr "old")]])])
          "containers[0].image" (.vstr "ghcr.io/x/y:2.0.0")).1)
        "containers[0].image" = .ok (.vstr "ghcr.io/x/y:2.0.0") :=
  ⟨rfl, c1_write_then_read_roundtrip _ _ (.vstr "ghcr.io/x/y:2.0.0") _ rfl⟩

/-- C3: path-must-pre-exist with no mutation on failure.  If any segment of
the path fails to resolve on the tree (the read raises), then `_set_in_path`
raises an error and the caller's tree is returned completely unchanged — in
particular no missing mapping key or sequence element is ever created. -/
theorem c3_set_fails_tree_unchanged (t : Value) (p : String) (v : Value)
    (h : ∃ e, _get_from_path t p = .error e) :
    ∃ e2, _set_in_path t p v = (t, some e2) := by
  obtain ⟨e, hget⟩ := h
  obtain ⟨e2, hset⟩ :=
    getSegs_err_set p v ((splitDots p.data).map (fun l => ⟨l⟩)) t e hget
  refine ⟨e2, ?_⟩
  unfold _set_in_path setExc
  rw [hset]

theorem c3_set_fails_tree_unchanged_witness :
    (∃ e, _get_from_path (.vdict [("a", .vdict [])]) "a.b.c" = .error e)
    ∧ ∃ e2, _set_in_path (.vdict [("a", .vdict [])]) "a.b.c" (.vstr "x")
        = (.vdict [("a", .vdict [])], some e2) :=
  ⟨⟨.keyError "Missing key 'b' in path 'a.b.c'", rfl⟩,
   c3_set_fails_tree_unchanged _ _ _ ⟨.keyError "Missing key 'b' in path 'a.b.c'", rfl⟩⟩

/-- Position `p` of the character list lies strictly inside a bracketed index
`[...]` (spec wording: between a `[` and its matching `]`, with no nested
bracket characters in between). -/
def InsideIdx (s : List Char) (p : Nat) : Prop :=
  ∃ u w rest2, s = u ++ '[' :: w ++ ']' :: rest2 ∧
    (∀ c ∈ w, c ≠ '[' ∧ c ≠ ']') ∧ u.length < p ∧ p ≤ u.length + w.length

theorem drop_eq_cons_of_getElem (s : List Char) (p : Nat) (c : Char)
    (h : s[p]? = some c) : s.drop p = c :: s.drop (p + 1) := by
  induction s generalizing p with
  | nil => simp at h
  | cons a s ih =>
    cases p with
    | zero => simp at h; simp [h]
    | succ q =>
      simp only [List.getElem?_cons_succ] at h
      simpa using ih q h

theorem lookaheadBracket_to_rbracket (l r : List Char)
    (h : ∀ c ∈ l, c ≠ '[' ∧ c ≠ ']') :
    lookaheadBracket (l ++ ']' :: r) = true := by
  induction l with
  | nil => simp [lookaheadBracket]
  | cons a l ih =>
    have ha := h a (by simp)
    simp only [List.cons_append, lookaheadBracket, if_neg ha.2, if_neg ha.1]
    exact ih (fun c hc => h c (by simp [hc]))

/-- C2 (counterexample): the dot at position 1 of the path `a.b]` is not
inside any bracketed index, yet the code's split treats it as a non-separator
(the whole path stays one segment), refuting "a dot outside brackets always
is [a separator]". -/
theorem c2_counterexample :
    "a.b]".data[1]? = some '.' ∧ ¬ InsideIdx "a.b]".data 1 ∧
      sepAt "a.b]".data 1 = false ∧ splitDots "a.b]".data = ["a.b]".data] := by
  refine ⟨by decide, ?_, by decide, by decide⟩
  rintro ⟨u, w, rest2, heq, -, -, -⟩
  have hmem : '[' ∈ "a.b]".data := by
    rw [heq]
    simp
  revert hmem
  decide

/-- C2 (amended): both `get` and `set` split the path with
`re.split(r"\.(?![^\[]*\])", path)`; a dot inside a bracketed index is never
a separator, and a dot is a separator exactly when it is not followed by a
`]` before any `[` — in particular a dot outside brackets is a separator
unless a stray `]` occurs after it with no intervening `[`. -/
theorem c2_segmentation_amended :
    (∀ (s : List Char) (p : Nat), s[p]? = some '.' → InsideIdx s p →
      sepAt s p = false)
    ∧ (∀ (s : List Char) (p : Nat), s[p]? = some '.' →
      lookaheadBracket (s.drop (p + 1)) = false → sepAt s p = true) := by
  constructor
  · intro s p hdot hin
    obtain ⟨u, w, rest2, heq, hw, hlo, hhi⟩ := hin
    have hj : p + 1 = (u ++ '[' :: w.take (p - u.length)).length := by
      simp only [List.length_append, List.length_cons, List.length_take]
      omega
    have hsplit : s = (u ++ '[' :: w.take (p - u.length)) ++
        (w.drop (p - u.length) ++ ']' :: rest2) := by
      rw [heq]
      simp only [List.append_assoc, List.cons_append, List.append_cancel_left_eq,
        List.cons.injEq, true_and]
      rw [← List.append_assoc, List.take_append_drop]
    have hdrop : s.drop (p + 1) = w.drop (p - u.length) ++ ']' :: rest2 := by
      rw [hsplit, hj, List.drop_left]
    have hla : lookaheadBracket (s.drop (p + 1)) = true := by
      rw [hdrop]
      exact lookaheadBracket_to_rbracket _ _
        (fun c hc => hw c (List.mem_of_mem_drop hc))
    have hd := drop_eq_cons_of_getElem s p '.' hdot
    simp only [sepAt, hd, hla, Bool.not_true]
  · intro s p hdot hla
    have hd := drop_eq_cons_of_getElem s p '.' hdot
    simp only [sepAt, hd, hla, Bool.not_false]

theorem c2_segmentation_amended_witness :
    sepAt "a[b.c]".data 3 = false ∧ sepAt "a.b".data 1 = true := by
  constructor
  · refine c2_segmentation_amended.1 "a[b.c]".data 3 (by decide)
      ⟨"a".data, "b.c".data, [], by decide, by decide, by decide, by decide⟩
  · exact c2_segmentation_amended.2 "a.b".data 1 (by decide) (by decide)

theorem splitDots_no_dot (cs : List Char) (h : ∀ c ∈ cs, c ≠ '.') :
    splitDots cs = [cs] := by
  induction cs with
  | nil => rfl
  | cons c cs ih =>
    have hc : c ≠ '.' := h c (by simp)
    have ih2 := ih (fun c hc2 => h c (by simp [hc2]))
    simp [splitDots, hc, ih2]

theorem dropWhile_ne_rbracket (m : List Char) (h : ∀ c ∈ m, c ≠ ']') :
    m.dropWhile (fun c => c = ']') = m := by
  cases m with
  | nil => rfl
  | cons a tail =>
    have ha : a ≠ ']' := h a (by simp)
    simp [List.dropWhile, ha]

theorem rstrip_append_rbracket (l : List Char) (h : ∀ c ∈ l, c ≠ ']') :
    rstripRBracket (l ++ [']']) = l := by
  unfold rstripRBracket
  rw [List.reverse_append]
  simp only [List.reverse_cons, List.reverse_nil, List.nil_append, List.singleton_append,
    List.dropWhile_cons, decide_eq_true rfl, if_true]
  rw [dropWhile_ne_rbracket l.reverse (fun c hc => h c (List.mem_reverse.mp hc))]
  exact List.reverse_reverse l

theorem takeWhile_ne_lbracket (l r : List Char) (h : ∀ c ∈ l, c ≠ '[') :
    (l ++ '[' :: r).takeWhile (fun c => c ≠ '[') = l := by
  induction l with
  | nil => simp [List.takeWhile]
  | cons a l ih =>
    have ha : a ≠ '[' := h a (by simp)
    rw [List.cons_append, List.takeWhile_cons, if_pos (decide_eq_true ha),
      ih (fun c hc => h c (by simp [hc]))]

theorem dropWhile_ne_lbracket (l r : List Char) (h : ∀ c ∈ l, c ≠ '[') :
    (l ++ '[' :: r).dropWhile (fun c => c ≠ '[') = '[' :: r := by
  induction l with
  | nil => simp [List.dropWhile]
  | cons a l ih =>
    have ha : a ≠ '[' := h a (by simp)
    rw [List.cons_append, List.dropWhile_cons, if_pos (decide_eq_true ha),
      ih (fun c hc => h c (by simp [hc]))]

/-- C4 (counterexample): on the tree `{name: [a, b]}` the path `name[-1]`
addresses a position that is not a valid 0-based position of the sequence,
yet `get` succeeds (Python negative indexing returns the last element) and
`set` raises no error either, refuting the claimed out-of-bounds failure. -/
theorem c4_counterexample :
    _get_from_path (.vdict [("name", .vlist [.vstr "a", .vstr "b"])]) "name[-1]"
      = .ok (.vstr "b")
    ∧ (_set_in_path (.vdict [("name", .vlist [.vstr "a", .vstr "b"])]) "name[-1]"
        (.vstr "x")).2 = none :=
  ⟨rfl, rfl⟩

/-- C4 (amended): for a tree holding a sequence under mapping key `name`,
`get` and `set` on the segment `name[idx]` fail with an "index out of
bounds" / "index out of range" error naming the index and the full path
whenever `idx` is greater than or equal to the sequence's length (rather
than whenever `idx` is not a valid 0-based position: in-range negative
indices resolve Python-style instead of failing). -/
theorem c4_index_out_of_bounds_amended
    (name idxstr : String) (idx : Int) (kvs : List (String × Value)) (xs : List Value)
    (v : Value)
    (hname : ∀ c ∈ name.data, c ≠ '.' ∧ c ≠ '[' ∧ c ≠ ']')
    (hidx : ∀ c ∈ idxstr.data, c ≠ '.' ∧ c ≠ '[' ∧ c ≠ ']')
    (hparse : parsePyInt idxstr.data = some idx)
    (hkey : dlookup kvs name = some (.vlist xs))
    (hbound : (xs.length : Int) ≤ idx) :
    _get_from_path (.vdict kvs) (name ++ "[" ++ idxstr ++ "]")
      = .error (.indexError ("Index [" ++ toString idx ++ "] out of bounds for '" ++
          name ++ "' in path '" ++ (name ++ "[" ++ idxstr ++ "]") ++ "'"))
    ∧ _set_in_path (.vdict kvs) (name ++ "[" ++ idxstr ++ "]") v
      = (.vdict kvs,
         some (.indexError ("Index [" ++ toString idx ++ "] out of range for '" ++
           name ++ "' in path '" ++ (name ++ "[" ++ idxstr ++ "]") ++ "'"))) := by
  set p : String := name ++ "[" ++ idxstr ++ "]" with hp
  have hdata : p.data = name.data ++ '[' :: (idxstr.data ++ [']']) := by
    simp [hp, String.data_append]
  have hnodot : ∀ c ∈ p.data, c ≠ '.' := by
    rw [hdata]
    intro c hc
    simp only [List.mem_append, List.mem_cons, List.not_mem_nil, or_false] at hc
    rcases hc with h1 | h1 | h1 | h1
    · exact (hname c h1).1
    · rw [h1]; decide
    · exact (hidx c h1).1
    · rw [h1]; decide
  have hsegs : (splitDots p.data).map (fun l => (⟨l⟩ : String)) = [p] := by
    rw [splitDots_no_dot p.data hnodot]
    rfl
  have hcontains : p.data.contains '[' = true := by
    apply List.elem_eq_true_of_mem
    rw [hdata]
    simp
  have hcount : p.data.count '[' = 1 := by
    rw [hdata, List.count_append, List.count_cons]
    have h1 : name.data.count '[' = 0 :=
      List.count_eq_zero.mpr (fun hmem => (hname _ hmem).2.1 rfl)
    have h2 : (idxstr.data ++ [']']).count '[' = 0 := by
      rw [List.count_append]
      have h3 : idxstr.data.count '[' = 0 :=
        List.count_eq_zero.mpr (fun hmem => (hidx _ hmem).2.1 rfl)
      simp [h3, List.count_singleton]
    simp [h1, h2]
  have hps : parseSeg p = .ok (some (name, idx)) := by
    unfold parseSeg
    rw [hcontains, if_pos rfl, if_neg (by rw [hcount]; omega)]
    rw [hdata, takeWhile_ne_lbracket _ _ (fun c hc => (hname c hc).2.1),
      dropWhile_ne_lbracket _ _ (fun c hc => (hname c hc).2.1)]
    simp only [List.drop_succ_cons, List.drop_zero]
    rw [rstrip_append_rbracket _ (fun c hc => (hidx c hc).2.2), hparse]
  constructor
  · show getSegs p (.vdict kvs) ((splitDots p.data).map (fun l => ⟨l⟩)) = _
    rw [hsegs]
    simp only [getSegs, getStepVal, hps, pyContains, hkey, Option.isSome_some,
      Bool.not_true, Bool.false_eq_true, if_false, pySubscriptStr, if_pos hbound]
  · show (match setSegs p v (.vdict kvs) ((splitDots p.data).map (fun l => ⟨l⟩)) with
      | .ok d => (d, none)
      | .error e => ((.vdict kvs : Value), some e)) = _
    rw [hsegs]
    simp only [setSegs, setTerminal, hps, pyContains, hkey, Option.isSome_some,
      Bool.not_true, Bool.false_eq_true, if_false, pySubscriptStr, if_pos hbound]

theorem c4_index_out_of_bounds_amended_witness :
    _get_from_path (.vdict [("name", .vlist [.vnull])]) "name[5]"
      = .error (.indexError "Index [5] out of bounds for 'name' in path 'name[5]'")
    ∧ _set_in_path (.vdict [("name", .vlist [.vnull])]) "name[5]" .vnull
      = (.vdict [("name", .vlist [.vnull])],
         some (.indexError "Index [5] out of range for 'name' in path 'name[5]'")) :=
  c4_index_out_of_bounds_amended "name" "5" 5 [("name", .vlist [.vnull])] [.vnull]
    .vnull (by decide) (by decide) (by decide) rfl (by decide)

/-! ## Integration applier (`apply_integration`, lines 179-258)

Files on disk are modelled as an association list from path to the parsed
document tree: `_load_yaml_or_json` on a present file returns its tree and
`_dump_yaml_or_json` writes the tree back under the same path.  The pydantic
metadata models (`ReplaceImageEntry`, `ServiceSpecEntry`, ...) are carried
over field by field. -/

structure PathValue where
  path : String
  value : String

structure ReplaceImageEntry where
  file : String
  path : String

structure ServiceSpecEntry where
  file : String
  user : Option PathValue
  command : Option PathValue

structure IntegrationEntry where
  consumer_repository : String
  replace_image : List ReplaceImageEntry
  service_spec : List ServiceSpecEntry

structure RockCIMetadata where
  integrations : List IntegrationEntry

structure IntegrationResult where
  updated_files : List String
  missing_files : List String
  path_errors : List String

/-- The on-disk state: path ↦ parsed document. -/
abbrev FS := List (String × Value)

/-- `base_dir / entry.file`. -/
def joinPath (base file : String) : String := base ++ "/" ++ file

def emptyResult : IntegrationResult := ⟨[], [], []⟩

/-- One iteration of the replace-image loop (lines 214-229): missing file ↦
`missing_files`; successful `_set_in_path` ↦ dump + `updated_files`; raised
exception ↦ `"{file_path}: {path_expr} -> {e}"` in `path_errors`. -/
def replaceImageStep (base_dir rock_image : String) (st : FS × IntegrationResult)
    (entry : ReplaceImageEntry) : FS × IntegrationResult :=
  let fp := joinPath base_dir entry.file
  match dlookup st.1 fp with
  | none => (st.1, { st.2 with missing_files := st.2.missing_files ++ [fp] })
  | some doc =>
    match setExc doc entry.path (.vstr rock_image) with
    | .ok doc2 =>
      (dassign st.1 fp doc2, { st.2 with updated_files := st.2.updated_files ++ [fp] })
    | .error e =>
      (st.1, { st.2 with path_errors :=
        st.2.path_errors ++ [fp ++ ": " ++ entry.path ++ " -> " ++ renderPyErr e] })

/-- The in-memory part of one service-spec iteration (lines 243-247): apply
the `user` sub-patch if present, then the `command` sub-patch if present. -/
def applyServicePatches (doc : Value) (entry : ServiceSpecEntry) : Except PyErr Value :=
  match entry.user with
  | some u =>
    match setExc doc u.path (.vstr u.value) with
    | .error e => .error e
    | .ok d1 =>
      match entry.command with
      | some c => setExc d1 c.path (.vstr c.value)
      | none => .ok d1
  | none =>
    match entry.command with
    | some c => setExc doc c.path (.vstr c.value)
    | none => .ok doc

/-- One iteration of the service-spec loop (lines 232-252): the dump runs
only after every present sub-patch has succeeded; a raised exception is
recorded as `"{file_path}: service-spec -> {e}"`. -/
def serviceSpecStep (base_dir : String) (st : FS × IntegrationResult)
    (entry : ServiceSpecEntry) : FS × IntegrationResult :=
  let fp := joinPath base_dir entry.file
  match dlookup st.1 fp with
  | none => (st.1, { st.2 with missing_files := st.2.missing_files ++ [fp] })
  | some doc =>
    match applyServicePatches doc entry with
    | .ok doc2 =>
      (dassign st.1 fp doc2, { st.2 with updated_files := st.2.updated_files ++ [fp] })
    | .error e =>
      (st.1, { st.2 with path_errors :=
        st.2.path_errors ++ [fp ++ ": service-spec -> " ++ renderPyErr e] })

/-- `apply_integration` (lines 209-258) for one integration entry: the
replace-image loop followed by the service-spec loop, threading the on-disk
state and accumulating the `IntegrationResult`. -/
def apply_integration (integration : IntegrationEntry) (rock_image : String)
    (base_dir : String) (fs : FS) : FS × IntegrationResult :=
  let st1 := integration.replace_image.foldl (replaceImageStep base_dir rock_image)
    (fs, emptyResult)
  integration.service_spec.foldl (serviceSpecStep base_dir) st1

def resCount (r : IntegrationResult) : Nat :=
  r.updated_files.length + r.missing_files.length + r.path_errors.length

theorem replaceImageStep_count (b i : String) (st : FS × IntegrationResult)
    (entry : ReplaceImageEntry) :
    resCount (replaceImageStep b i st entry).2 = resCount st.2 + 1 := by
  cases h : dlookup st.1 (joinPath b entry.file) with
  | none =>
    simp only [replaceImageStep, h, resCount, List.length_append, List.length_cons,
      List.length_nil]
    omega
  | some doc =>
    cases h2 : setExc doc entry.path (.vstr i) with
    | ok doc2 =>
      simp only [replaceImageStep, h, h2, resCount, List.length_append, List.length_cons,
        List.length_nil]
      omega
    | error e =>
      simp only [replaceImageStep, h, h2, resCount, List.length_append, List.length_cons,
        List.length_nil]
      omega

theorem serviceSpecStep_count (b : String) (st : FS × IntegrationResult)
    (entry : ServiceSpecEntry) :
    resCount (serviceSpecStep b st entry).2 = resCount st.2 + 1 := by
  cases h : dlookup st.1 (joinPath b entry.file) with
  | none =>
    simp only [serviceSpecStep, h, resCount, List.length_append, List.length_cons,
      List.length_nil]
    omega
  | some doc =>
    cases h2 : applyServicePatches doc entry with
    | ok doc2 =>
      simp only [serviceSpecStep, h, h2, resCount, List.length_append, List.length_cons,
        List.length_nil]
      omega
    | error e =>
      simp only [serviceSpecStep, h, h2, resCount, List.length_append, List.length_cons,
        List.length_nil]
      omega

theorem foldl_replace_count (b i : String) :
    ∀ (l : List ReplaceImageEntry) (st : FS × IntegrationResult),
      resCount ((l.foldl (replaceImageStep b i) st).2) = resCount st.2 + l.length := by
  intro l
  induction l with
  | nil => intro st; simp
  | cons e l ih =>
    intro st
    simp only [List.foldl_cons, ih, replaceImageStep_count, List.length_cons]
    omega

theorem foldl_service_count (b : String) :
    ∀ (l : List ServiceSpecEntry) (st : FS × IntegrationResult),
      resCount ((l.foldl (serviceSpecStep b) st).2) = resCount st.2 + l.length := by
  intro l
  induction l with
  | nil => intro st; simp
  | cons e l ih =>
    intro st
    simp only [List.foldl_cons, ih, serviceSpecStep_count, List.length_cons]
    omega

/-- Every entry of the integration contributes exactly one record to exactly
one of the three result lists. -/
theorem apply_integration_count (integration : IntegrationEntry)
    (rock_image base_dir : String) (fs : FS) :
    resCount (apply_integration integration rock_image base_dir fs).2
      = integration.replace_image.length + integration.service_spec.length := by
  unfold apply_integration
  rw [foldl_service_count, foldl_replace_count]
  simp [emptyResult, resCount]

/-- A step of either loop only appends to the three result lists. -/
theorem replaceImageStep_mem (b i : String) (st : FS × IntegrationResult)
    (entry : ReplaceImageEntry) (x : String) :
    (x ∈ st.2.updated_files → x ∈ (replaceImageStep b i st entry).2.updated_files)
    ∧ (x ∈ st.2.missing_files → x ∈ (replaceImageStep b i st entry).2.missing_files)
    ∧ (x ∈ st.2.path_errors → x ∈ (replaceImageStep b i st entry).2.path_errors) := by
  cases h : dlookup st.1 (joinPath b entry.file) with
  | none => simp +contextual [replaceImageStep, h]
  | some doc =>
    cases h2 : setExc doc entry.path (.vstr i) with
    | ok doc2 => simp +contextual [replaceImageStep, h, h2]
    | error e => simp +contextual [replaceImageStep, h, h2]

theorem serviceSpecStep_mem (b : String) (st : FS × IntegrationResult)
    (entry : ServiceSpecEntry) (x : String) :
    (x ∈ st.2.updated_files → x ∈ (serviceSpecStep b st entry).2.updated_files)
    ∧ (x ∈ st.2.missing_files → x ∈ (serviceSpecStep b st entry).2.missing_files)
    ∧ (x ∈ st.2.path_errors → x ∈ (serviceSpecStep b st entry).2.path_errors) := by
  cases h : dlookup st.1 (joinPath b entry.file) with
  | none => simp +contextual [serviceSpecStep, h]
  | some doc =>
    cases h2 : applyServicePatches doc entry with
    | ok doc2 => simp +contextual [serviceSpecStep, h, h2]
    | error e => simp +contextual [serviceSpecStep, h, h2]

theorem foldl_replace_mem (b i : String) :
    ∀ (l : List ReplaceImageEntry) (st : FS × IntegrationResult) (x : String),
      (x ∈ st.2.updated_files → x ∈ ((l.foldl (replaceImageStep b i) st).2).updated_files)
      ∧ (x ∈ st.2.missing_files → x ∈ ((l.foldl (replaceImageStep b i) st).2).missing_files)
      ∧ (x ∈ st.2.path_errors → x ∈ ((l.foldl (replaceImageStep b i) st).2).path_errors) := by
  intro l
  induction l with
  | nil => intro st x; exact ⟨id, id, id⟩
  | cons e l ih =>
    intro st x
    have h1 := replaceImageStep_mem b i st e x
    have h2 := ih (replaceImageStep b i st e) x
    exact ⟨fun h => h2.1 (h1.1 h), fun h => h2.2.1 (h1.2.1 h), fun h => h2.2.2 (h1.2.2 h)⟩

theorem foldl_service_mem (b : String) :
    ∀ (l : List ServiceSpecEntry) (st : FS × IntegrationResult) (x : String),
      (x ∈ st.2.updated_files → x ∈ ((l.foldl (serviceSpecStep b) st).2).updated_files)
      ∧ (x ∈ st.2.missing_files → x ∈ ((l.foldl (serviceSpecStep b) st).2).missing_files)
      ∧ (x ∈ st.2.path_errors → x ∈ ((l.foldl (serviceSpecStep b) st).2).path_errors) := by
  intro l
  induction l with
  | nil => intro st x; exact ⟨id, id, id⟩
  | cons e l ih =>
    intro st x
    have h1 := serviceSpecStep_mem b st e x
    have h2 := ih (serviceSpecStep b st e) x
    exact ⟨fun h => h2.1 (h1.1 h), fun h => h2.2.1 (h1.2.1 h), fun h => h2.2.2 (h1.2.2 h)⟩

/-- C5: per-file failure isolation in `apply_integration`.  For a
replace-image entry at any position: an absent target file is recorded in
`missing_files` and a path-resolution failure is recorded as
`"{file}: {path} -> {error}"` in `path_errors`; in both cases every other
entry is still processed (each of the replace-image and service-spec entries
contributes exactly one record), and `apply_integration` is a total
function — it never raises. -/
theorem c5_per_file_failure_isolation
    (integration : IntegrationEntry) (rock_image base_dir : String) (fs : FS)
    (l1 l2 : List ReplaceImageEntry) (en : ReplaceImageEntry)
    (hsplit : integration.replace_image = l1 ++ en :: l2) :
    (dlookup (l1.foldl (replaceImageStep base_dir rock_image) (fs, emptyResult)).1
        (joinPath base_dir en.file) = none →
      joinPath base_dir en.file
        ∈ (apply_integration integration rock_image base_dir fs).2.missing_files)
    ∧ (∀ doc e,
        dlookup (l1.foldl (replaceImageStep base_dir rock_image) (fs, emptyResult)).1
          (joinPath base_dir en.file) = some doc →
        setExc doc en.path (.vstr rock_image) = .error e →
        (joinPath base_dir en.file ++ ": " ++ en.path ++ " -> " ++ renderPyErr e)
          ∈ (apply_integration integration rock_image base_dir fs).2.path_errors)
    ∧ resCount (apply_integration integration rock_image base_dir fs).2
        = integration.replace_image.length + integration.service_spec.length := by
  have hfold : apply_integration integration rock_image base_dir fs
      = integration.service_spec.foldl (serviceSpecStep base_dir)
          (l2.foldl (replaceImageStep base_dir rock_image)
            (replaceImageStep base_dir rock_image
              (l1.foldl (replaceImageStep base_dir rock_image) (fs, emptyResult)) en)) := by
    unfold apply_integration
    rw [hsplit, List.foldl_append, List.foldl_cons]
  refine ⟨?_, ?_, apply_integration_count integration rock_image base_dir fs⟩
  · intro hnone
    rw [hfold]
    apply (foldl_service_mem base_dir integration.service_spec _ _).2.1
    apply (foldl_replace_mem base_dir rock_image l2 _ _).2.1
    simp [replaceImageStep, hnone]
  · intro doc e hsome herr
    rw [hfold]
    apply (foldl_service_mem base_dir integration.service_spec _ _).2.2
    apply (foldl_replace_mem base_dir rock_image l2 _ _).2.2
    simp [replaceImageStep, hsome, herr]

theorem c5_per_file_failure_isolation_witness :
    "b/f.yaml" ∈ (apply_integration
      ⟨"https://example.com/repo.git", [⟨"f.yaml", "a"⟩], []⟩
      "img:1.0" "b" []).2.missing_files :=
  (c5_per_file_failure_isolation
    ⟨"https://example.com/repo.git", [⟨"f.yaml", "a"⟩], []⟩
    "img:1.0" "b" [] [] [] ⟨"f.yaml", "a"⟩ rfl).1 rfl

/-- C6: full-success result shape.  When `apply_integration` finishes with no
recorded path errors and no recorded missing files (i.e. every target file
existed and every path expression resolved), the number of updated files is
the number of replace-image entries plus the number of service-spec
entries. -/
theorem c6_full_success_result_shape
    (integration : IntegrationEntry) (rock_image base_dir : String) (fs : FS)
    (hpe : (apply_integration integration rock_image base_dir fs).2.path_errors = [])
    (hmf : (apply_integration integration rock_image base_dir fs).2.missing_files = []) :
    (apply_integration integration rock_image base_dir fs).2.updated_files.length
      = integration.replace_image.length + integration.service_spec.length := by
  have h := apply_integration_count integration rock_image base_dir fs
  rw [resCount, hpe, hmf] at h
  simpa using h

theorem c6_full_success_result_shape_witness :
    (apply_integration
      ⟨"https://github.com/canonical/example",
       [⟨"test.yaml", "containers[0].image"⟩],
       [⟨"service.yaml", some ⟨"user", "_daemon_"⟩, some ⟨"command", "run"⟩⟩]⟩
      "ghcr.io/canonical/my-rock:1.2.3" "base"
      [("base/test.yaml", .vdict [("containers", .vlist [.vdict [("image", .vstr "old")]])]),
       ("base/service.yaml", .vdict [("user", .vstr ""), ("command", .vstr "")])]
      ).2.updated_files.length = 2 :=
  c6_full_success_result_shape
    ⟨"https://github.com/canonical/example",
     [⟨"test.yaml", "containers[0].image"⟩],
     [⟨"service.yaml", some ⟨"user", "_daemon_"⟩, some ⟨"command", "run"⟩⟩]⟩
    "ghcr.io/canonical/my-rock:1.2.3" "base"
    [("base/test.yaml", .vdict [("containers", .vlist [.vdict [("image", .vstr "old")]])]),
     ("base/service.yaml", .vdict [("user", .vstr ""), ("command", .vstr "")])]
    rfl rfl

/-- C10: per-file write atomicity for service-spec entries.  For an entry
whose target file exists, if applying the present sub-patches (user and/or
command) fails in memory, the on-disk state is left untouched (the dump is
never reached), the file is not added to `updated_files`, `missing_files` is
untouched, and the failure is recorded only in `path_errors` as
`"{file}: service-spec -> {error}"`. -/
theorem c10_service_spec_write_atomicity (base_dir : String)
    (st : FS × IntegrationResult) (entry : ServiceSpecEntry) (doc : Value) (e : PyErr)
    (hfile : dlookup st.1 (joinPath base_dir entry.file) = some doc)
    (hfail : applyServicePatches doc entry = .error e) :
    serviceSpecStep base_dir st entry
      = (st.1, { st.2 with path_errors := st.2.path_errors ++
          [joinPath base_dir entry.file ++ ": service-spec -> " ++ renderPyErr e] }) := by
  simp only [serviceSpecStep, hfile, hfail]

theorem c10_service_spec_write_atomicity_witness :
    serviceSpecStep "b" ([("b/svc.yaml", .vdict [])], emptyResult)
      ⟨"svc.yaml", some ⟨"user", "root"⟩, none⟩
      = ([("b/svc.yaml", .vdict [])],
         { emptyResult with path_errors :=
            emptyResult.path_errors ++
              ["b/svc.yaml: service-spec -> " ++
                renderPyErr (.keyError "Key 'user' not found in path 'user'")] }) :=
  c10_service_spec_write_atomicity "b" ([("b/svc.yaml", .vdict [])], emptyResult)
    ⟨"svc.yaml", some ⟨"user", "root"⟩, none⟩ (.vdict [])
    (.keyError "Key 'user' not found in path 'user'") rfl rfl

/-! ## Orchestrator (`rock_metadata_handler.py`)

The git client is an external collaborator; its calls are modelled as an
emitted trace of events.  Each integration index `i` has its own cloned
repository: `repo_fs i` is its on-disk state and `work_dir i` its working
directory (`client.repo.working_dir`). -/

inductive GitEvent where
  | cloned (repo : String)
  | checkedOut (repo branch : String)
  | committedAndPushed (repo branch : String)
  | openedPR (repo base : String)

/-- Remote side effects: `commit_and_push` and `open_pull_request`. -/
def isRemoteMutation : GitEvent → Bool
  | .committedAndPushed _ _ => true
  | .openedPR _ _ => true
  | _ => false

/-- Python `s.split(sep)` for a single-character separator. -/
def splitOnChar (sep : Char) : List Char → List (List Char)
  | [] => [[]]
  | c :: cs =>
    if c = sep then [] :: splitOnChar sep cs
    else
      match splitOnChar sep cs with
      | [] => [[c]]
      | s :: ss => (c :: s) :: ss

/-- `validate_integration_result` (`rock_metadata_handler.py` lines 27-68):
`none` when the result passes, otherwise the `RuntimeError` message. -/
def validate_integration_result (result : IntegrationResult) (index : Nat)
    (repo_url : String) (integration : IntegrationEntry) (base_dir : String) :
    Option String :=
  let allowed := integration.service_spec.map (fun e2 => joinPath base_dir e2.file)
  let nonService := result.missing_files.filter (fun q => !(allowed.contains q))
  if nonService ≠ [] then
    some ("Integration " ++ toString index ++ " failed for " ++ repo_url ++
      ": missing expected files: " ++ String.intercalate ", " nonService)
  else if result.path_errors ≠ [] then
    some ("Integration " ++ toString index ++ " failed: " ++ repo_url ++
      " due to invalid path expressions:\n" ++
      String.intercalate "\n" (result.path_errors.map (fun e2 => " - " ++ e2)))
  else if result.updated_files = [] then
    some ("Integration " ++ toString index ++ " failed for " ++ repo_url ++
      ": no changes detected in updated files")
  else none

/-- The first loop of `integrate_rock_into_consumers` (lines 91-131): clone,
checkout, apply, validate, remembering the prepared PRs; on a validation
error the exception propagates with no remote side effect performed.  The
second loop (lines 134-136) then pushes and opens one PR per prepared
integration. -/
def integrateLoop (rock_image base_branch pr_branch : String) (repo_fs : Nat → FS)
    (work_dir : Nat → String) :
    List IntegrationEntry → Nat → List GitEvent → List String →
    List GitEvent × Option String
  | [], _, events, prepared =>
    (events ++ (prepared.map (fun repo =>
      [GitEvent.committedAndPushed repo pr_branch,
       GitEvent.openedPR repo base_branch])).flatten, none)
  | integration :: rest, i, events, prepared =>
    let repo := integration.consumer_repository
    let base_dir := work_dir i
    let events2 := events ++ [GitEvent.cloned repo, GitEvent.checkedOut repo base_branch]
    let result := (apply_integration integration rock_image base_dir (repo_fs i)).2
    match validate_integration_result result i repo integration base_dir with
    | some msg => (events2, some msg)
    | none =>
      integrateLoop rock_image base_branch pr_branch repo_fs work_dir rest (i + 1)
        events2 (prepared ++ [repo])

/-- `integrate_rock_into_consumers` (lines 71-136): returns the emitted git
trace and the propagated error, if any. -/
def integrate_rock_into_consumers (metadata : RockCIMetadata) (rock_image : String)
    (base_branch : String) (repo_fs : Nat → FS) (work_dir : Nat → String) :
    List GitEvent × Option String :=
  if rock_image.data.count ':' ≠ 1 then
    ([], some "ValueError: rock_image.split produced an unexpected number of values")
  else
    let parts := splitOnChar ':' rock_image.data
    let rock_name : String := ⟨parts.headD []⟩
    let rock_tag : String := ⟨(parts.drop 1).headD []⟩
    let rock_short_name : String := ⟨(splitOnChar '/' rock_name.data).reverse.headD []⟩
    let pr_branch := "integrate-" ++ rock_short_name ++ "-" ++ rock_tag
    integrateLoop rock_image base_branch pr_branch repo_fs work_dir
      metadata.integrations 0 [] []

theorem integrateLoop_spec (rock_image base_branch pr_branch : String)
    (repo_fs : Nat → FS) (work_dir : Nat → String) :
    ∀ (ints : List IntegrationEntry) (i : Nat) (events : List GitEvent)
      (prepared : List String),
      (∀ ev ∈ events, isRemoteMutation ev = false) →
      (((integrateLoop rock_image base_branch pr_branch repo_fs work_dir ints i events
          prepared).2.isSome →
        ∀ ev ∈ (integrateLoop rock_image base_branch pr_branch repo_fs work_dir ints i
          events prepared).1, isRemoteMutation ev = false)
      ∧ ((integrateLoop rock_image base_branch pr_branch repo_fs work_dir ints i events
          prepared).2 = none →
        ∃ t1 t2, (integrateLoop rock_image base_branch pr_branch repo_fs work_dir ints i
            events prepared).1 = t1 ++ t2
          ∧ (∀ ev ∈ t1, isRemoteMutation ev = false)
          ∧ (∀ ev ∈ t2, isRemoteMutation ev = true))) := by
  intro ints
  induction ints with
  | nil =>
    intro i events prepared hev
    constructor
    · intro hsome
      simp only [integrateLoop, Option.isSome_none] at hsome
      exact absurd hsome (by simp)
    · intro _
      refine ⟨events, _, rfl, hev, ?_⟩
      intro ev hev2
      simp only [List.mem_flatten, List.mem_map] at hev2
      obtain ⟨l, ⟨repo, _, hl⟩, hev3⟩ := hev2
      rw [← hl] at hev3
      simp only [List.mem_cons, List.not_mem_nil, or_false] at hev3
      rcases hev3 with h | h <;> rw [h] <;> rfl
  | cons integration rest ih =>
    intro i events prepared hev
    have hev2 : ∀ ev ∈ events ++ [GitEvent.cloned integration.consumer_repository,
        GitEvent.checkedOut integration.consumer_repository base_branch],
        isRemoteMutation ev = false := by
      intro ev h
      rcases List.mem_append.mp h with h | h
      · exact hev ev h
      · simp only [List.mem_cons, List.not_mem_nil, or_false] at h
        rcases h with h | h <;> rw [h] <;> rfl
    simp only [integrateLoop]
    cases hval : validate_integration_result
        (apply_integration integration rock_image (work_dir i) (repo_fs i)).2 i
        integration.consumer_repository integration (work_dir i) with
    | some msg =>
      constructor
      · intro _ ev hm
        exact hev2 ev hm
      · intro hnone
        exact Option.noConfusion hnone
    | none =>
      exact ih (i + 1) _ _ hev2

/-- C7: validate-all-before-push ordering.  When the run fails (an exception
propagates from `validate_integration_result`, or the rock reference fails to
parse), the emitted trace contains no `commit_and_push` and no
`open_pull_request` event — in particular a failure on entry `k` means no
remote side effect was performed for entries `0..k-1`; when the run succeeds,
the trace is all the local preparatory events followed by all the remote
push/PR events. -/
theorem c7_validate_all_before_push (metadata : RockCIMetadata) (rock_image : String)
    (base_branch : String) (repo_fs : Nat → FS) (work_dir : Nat → String) :
    (((integrate_rock_into_consumers metadata rock_image base_branch repo_fs
        work_dir).2.isSome →
      ∀ ev ∈ (integrate_rock_into_consumers metadata rock_image base_branch repo_fs
        work_dir).1, isRemoteMutation ev = false)
    ∧ ((integrate_rock_into_consumers metadata rock_image base_branch repo_fs
        work_dir).2 = none →
      ∃ t1 t2, (integrate_rock_into_consumers metadata rock_image base_branch repo_fs
          work_dir).1 = t1 ++ t2
        ∧ (∀ ev ∈ t1, isRemoteMutation ev = false)
        ∧ (∀ ev ∈ t2, isRemoteMutation ev = true))) := by
  unfold integrate_rock_into_consumers
  by_cases hc : rock_image.data.count ':' ≠ 1
  · rw [if_pos hc]
    exact ⟨fun _ ev hm => absurd hm (List.not_mem_nil ev), fun h => Option.noConfusion h⟩
  · rw [if_neg hc]
    exact integrateLoop_spec rock_image base_branch _ repo_fs work_dir
      metadata.integrations 0 [] [] (fun ev hm => absurd hm (List.not_mem_nil ev))

theorem c7_validate_all_before_push_witness :
    ∀ ev ∈ (integrate_rock_into_consumers
        ⟨[⟨"https://example.com/repo.git", [⟨"f.yaml", "a"⟩], []⟩]⟩
        "img:1.0" "main" (fun _ => []) (fun _ => "b")).1,
      isRemoteMutation ev = false :=
  (c7_validate_all_before_push
    ⟨[⟨"https://example.com/repo.git", [⟨"f.yaml", "a"⟩], []⟩]⟩
    "img:1.0" "main" (fun _ => []) (fun _ => "b")).1 rfl

/-! ## Manifest schema (`rock_ci_metadata_schema.py`)

The jsonschema semantics of the `rock_ci_metadata_schema` dict, clause by
clause: `"type"` checks the value kind, `"required"` checks key presence,
`"properties"` validates a key only when it is present, `"minItems"`/
`"minLength"` check sizes, the `"anyOf"` clause requires `user` or `command`,
and `"additionalProperties": False` — present only at the top level —
restricts the top-level keys to the declared ones. -/

def isStringMin1 : Value → Bool
  | .vstr s => 1 ≤ s.length
  | _ => false

/-- The `user` / `command` sub-schema: object, required `path` (string,
minLength 1) and `value` (string). -/
def validPathValueObj : Value → Bool
  | .vdict kvs =>
    (match dlookup kvs "path" with
     | some x => isStringMin1 x
     | none => false)
    && (match dlookup kvs "value" with
     | some (.vstr _) => true
     | _ => false)
  | _ => false

/-- The `replace-image` item sub-schema: object, required `file` and `path`,
both strings of minLength 1. -/
def validReplaceImageItem : Value → Bool
  | .vdict kvs =>
    (match dlookup kvs "file" with
     | some x => isStringMin1 x
     | none => false)
    && (match dlookup kvs "path" with
     | some x => isStringMin1 x
     | none => false)
  | _ => false

/-- The `service-spec` item sub-schema: object, required `file`, optional
`user`/`command` objects, and `anyOf` requiring at least one of the two. -/
def validServiceSpecItem : Value → Bool
  | .vdict kvs =>
    (match dlookup kvs "file" with
     | some x => isStringMin1 x
     | none => false)
    && (match dlookup kvs "user" with
     | some x => validPathValueObj x
     | none => true)
    && (match dlookup kvs "command" with
     | some x => validPathValueObj x
     | none => true)
    && ((dlookup kvs "user").isSome || (dlookup kvs "command").isSome)
  | _ => false

/-- The integration item sub-schema: object, required `consumer-repository`
(string, minLength 1) and `replace-image` (array, minItems 1), optional
`service-spec` array.  No `additionalProperties` clause appears here. -/
def validIntegrationItem : Value → Bool
  | .vdict kvs =>
    (match dlookup kvs "consumer-repository" with
     | some x => isStringMin1 x
     | none => false)
    && (match dlookup kvs "replace-image" with
     | some (.vlist xs) => 1 ≤ xs.length && xs.all validReplaceImageItem
     | _ => false)
    && (match dlookup kvs "service-spec" with
     | some (.vlist xs) => xs.all validServiceSpecItem
     | some _ => false
     | none => true)
  | _ => false

/-- Validation of a document against `rock_ci_metadata_schema`: top-level
object with required `integrations` (non-empty array of integration items)
and, per `"additionalProperties": False`, no key other than the declared
`integrations`. -/
def rock_ci_metadata_validate : Value → Bool
  | .vdict kvs =>
    (kvs.all (fun kv => kv.1 == "integrations"))
    && (match dlookup kvs "integrations" with
     | some (.vlist xs) => 1 ≤ xs.length && xs.all validIntegrationItem
     | _ => false)
  | _ => false

/-- C8 (counterexample): a manifest whose integration entry carries the
unknown nested field `bogus` passes schema validation, refuting "rejects
every document that contains a field not in the declared schema ... nested
inside any integration entry". -/
theorem c8_counterexample :
    rock_ci_metadata_validate (.vdict [("integrations", .vlist [.vdict
      [("consumer-repository", .vstr "https://example.com/repo.git"),
       ("replace-image", .vlist [.vdict [("file", .vstr "f.yaml"),
         ("path", .vstr "a.b")]]),
       ("bogus", .vstr "x")]])]) = true := rfl

theorem dlookup_append_ne (kvs : List (String × Value)) (key k2 : String) (v2 : Value)
    (h : key ≠ k2) : dlookup (kvs ++ [(k2, v2)]) key = dlookup kvs key := by
  induction kvs with
  | nil => simp [dlookup, Ne.symm h]
  | cons kv kvs ih =>
    obtain ⟨k1, w1⟩ := kv
    by_cases h1 : k1 = key <;> simp [dlookup, h1, ih]

/-- C8 (amended): extra properties are rejected only at the top level: any
unknown top-level field fails validation, while an unknown field added
inside an integration entry is silently accepted (the nested sub-schemas
carry no `additionalProperties` clause). -/
theorem c8_closed_schema_amended :
    (∀ (kvs : List (String × Value)) (k : String) (v0 : Value),
      (k, v0) ∈ kvs → k ≠ "integrations" →
      rock_ci_metadata_validate (.vdict kvs) = false)
    ∧ (∀ (kvs : List (String × Value)) (k : String) (v0 : Value),
      validIntegrationItem (.vdict kvs) = true →
      k ≠ "consumer-repository" → k ≠ "replace-image" → k ≠ "service-spec" →
      validIntegrationItem (.vdict (kvs ++ [(k, v0)])) = true) := by
  constructor
  · intro kvs k v0 hmem hk
    cases hall : kvs.all (fun kv => kv.1 == "integrations") with
    | false => simp [rock_ci_metadata_validate, hall]
    | true =>
      exfalso
      have h2 := List.all_eq_true.mp hall (k, v0) hmem
      exact hk (by simpa using h2)
  · intro kvs k v0 hvalid h1 h2 h3
    simp only [validIntegrationItem] at hvalid ⊢
    rw [dlookup_append_ne kvs "consumer-repository" k v0 (Ne.symm h1),
      dlookup_append_ne kvs "replace-image" k v0 (Ne.symm h2),
      dlookup_append_ne kvs "service-spec" k v0 (Ne.symm h3)]
    exact hvalid

theorem c8_closed_schema_amended_witness :
    rock_ci_metadata_validate (.vdict [("extra", .vstr "unexpected"),
      ("integrations", .vlist [.vdict
        [("consumer-repository", .vstr "r"),
         ("replace-image", .vlist [.vdict [("file", .vstr "f"),
           ("path", .vstr "p")]])]])]) = false
    ∧ validIntegrationItem (.vdict
        ([("consumer-repository", .vstr "r"),
          ("replace-image", .vlist [.vdict [("file", .vstr "f"),
            ("path", .vstr "p")]])] ++ [("bogus", .vstr "x")])) = true :=
  ⟨c8_closed_schema_amended.1 _ "extra" (.vstr "unexpected") (by simp) (by decide),
   c8_closed_schema_amended.2 _ "bogus" (.vstr "x") rfl (by decide) (by decide)
     (by decide)⟩

/-! ## Document loader (`_load_yaml_or_json`, lines 121-137) -/

/-- Position of the last occurrence of `c` (Python `str.rfind`). -/
def rfindPos (c : Char) : List Char → Option Nat
  | [] => none
  | a :: as =>
    match rfindPos c as with
    | some n => some (n + 1)
    | none => if a = c then some 0 else none

/-- `pathlib.PurePath.name`: the final path component. -/
def pathName (p : String) : String :=
  ⟨(p.data.reverse.takeWhile (fun c => c ≠ '/')).reverse⟩

/-- `pathlib.PurePath.suffix`: the extension of the final component — the
text from the last dot, provided that dot is neither the first nor the last
character of the name. -/
def pathSuffix (p : String) : String :=
  let name := (pathName p).data
  match rfindPos '.' name with
  | some i => if 0 < i ∧ i < name.length - 1 then ⟨name.drop i⟩ else ""
  | none => ""

/-- What `_load_yaml_or_json` does with the file contents: hand them to the
JSON parser or to the ruamel YAML parser.  The function has no other
branch — no extension check and no error path of its own. -/
inductive LoadAction where
  | parseJson
  | parseYaml
deriving DecidableEq

/-- `_load_yaml_or_json` dispatch (lines 135-137): `.json` files go to
`json.loads`, every other path — whatever its extension — goes to
`_yaml.load`. -/
def _load_yaml_or_json (path : String) : LoadAction :=
  if pathSuffix path = ".json" then .parseJson else .parseYaml

/-- C9: the loader does not reject unsupported extensions.  A `.txt` path —
whose suffix is neither `.json` nor a YAML extension — is silently handed to
the YAML parser instead of failing with a format error, contradicting the
claim and the function's own docstring (which promises `ValueError` for an
unsupported extension). -/
theorem c9_unsupported_extension_parses_as_yaml :
    pathSuffix "config.txt" = ".txt"
    ∧ _load_yaml_or_json "config.txt" = .parseYaml :=
  ⟨rfl, rfl⟩

end ChaCI
